import Mathlib

/-!
Verification of the Avalon bus-driver layer (cocotb/drivers/avalon.py) against
its natural-language specification.  The Python code is shallowly embedded:
the memory responder coroutine `AvalonMemory._respond` becomes a per-clock-edge
step function on an explicit state, the master `AvalonMaster.read`/`write`
become straight-line state transformers (their control flow is linear once the
bus has no waitrequest signal), the lock built from `busy`/`busy_event` becomes
a small labelled transition system, and the streaming packet driver
`AvalonSTPkts._send_string` becomes a pure word-list builder plus a
cycle-trace builder for the idle-gap logic.
-/

/-- An entry of `AvalonMemory._responses`.  In the Python source an entry is
`None` (a latency-padding slot meaning no response that cycle), `True`
(respond with the all-x undefined marker), or an integer value. -/
inductive Resp where
  | noresp
  | undef
  | val (v : Nat)
  deriving DecidableEq

/-- The observable state of the `readdata` line: never driven yet (simulator
start-up X), driven with the all-x undefined marker (`_val.binstr = "x"*width`,
avalon.py line 228), or driven with an integer value (line 230). -/
inductive Sig where
  | unknownX
  | allX
  | value (v : Nat)
  deriving DecidableEq

/-- The `readdata` value produced when a non-pad response entry is driven
(avalon.py lines 226-233).  `noresp` is never driven; the `unknownX` result in
that branch is a dead default. -/
def respSig (r : Resp) : Sig :=
  match r with
  | Resp.noresp => Sig.unknownX
  | Resp.undef => Sig.allX
  | Resp.val v => Sig.value v

/-- The bus inputs sampled by the responder at one clock edge (read strobe,
write strobe, address, writedata). -/
structure BusIn where
  read : Bool
  write : Bool
  address : Nat
  writedata : Nat
  deriving DecidableEq

/-- The state of one `AvalonMemory`: its backing store `_mem` (a Python dict,
embedded as an association list where the most recent binding shadows older
ones), the response queue `_responses`, and the two output lines it drives. -/
structure RespState where
  mem : List (Nat × Nat)
  responses : List Resp
  readdata : Sig
  readdatavalid : Bool
  deriving DecidableEq

/-- Lookup in the embedded store; the head binding shadows later ones, which
gives Python-dict overwrite semantics together with `memSet`. -/
def memGet : List (Nat × Nat) → Nat → Option Nat
  | [], _ => none
  | (k, v) :: t, a => if k = a then some v else memGet t a

/-- Store update `self._mem[addr] = data` (avalon.py line 253). -/
def memSet (m : List (Nat × Nat)) (a v : Nat) : List (Nat × Nat) :=
  (a, v) :: m

/-- `AvalonMemory._pad` (avalon.py lines 206-210): append `None` entries until
the response queue has at least the drawn latency `l` entries. -/
def padTo (l : Nat) (q : List Resp) : List Resp :=
  q ++ List.replicate (l - q.length) Resp.noresp

/-- The response entry appended for a read of address `a` (avalon.py lines
242-247): the undefined marker for a never-written address, otherwise the
stored value. -/
def respOf (m : List (Nat × Nat)) (a : Nat) : Resp :=
  match memGet m a with
  | none => Resp.undef
  | some v => Resp.val v

/-- Number of warnings logged for a read of address `a` (avalon.py line 243):
exactly one when the address was never written, none otherwise. -/
def warnOf (m : List (Nat × Nat)) (a : Nat) : Nat :=
  match memGet m a with
  | none => 1
  | some _ => 0

/-- Driving the popped response entry (avalon.py lines 226-235): a pad entry
drives `readdatavalid` low and leaves `readdata` alone; the other entries
drive `readdata` and raise `readdatavalid`. -/
def drive (s : RespState) (r : Resp) : RespState :=
  match r with
  | Resp.noresp => { s with readdatavalid := false }
  | Resp.undef => { s with readdata := Sig.allX, readdatavalid := true }
  | Resp.val v => { s with readdata := Sig.value v, readdatavalid := true }

/-- One iteration of the `AvalonMemory._respond` loop (avalon.py lines
212-253) at one rising clock edge, with `l` the value drawn by
`random.randint(self._readlatency_min, self._readlatency_max)` this cycle.
Order is exactly the source order: pop-and-drive first, then (after the
ReadOnly settle) the read branch pads the queue and appends a response, then
the write branch updates the store.  Returns the new state and the number of
warnings logged. -/
def respondStep (readable writeable : Bool) (l : Nat) (s : RespState) (i : BusIn) :
    RespState × Nat :=
  let popped := s.responses.headD Resp.noresp
  let s1 := drive { s with responses := s.responses.tail } popped
  let s2 :=
    if readable && i.read then
      { s1 with responses := padTo l s1.responses ++ [respOf s1.mem i.address] }
    else s1
  let w := if readable && i.read then warnOf s1.mem i.address else 0
  let s3 :=
    if writeable && i.write then { s2 with mem := memSet s2.mem i.address i.writedata }
    else s2
  (s3, w)

/-- Run the responder over a script of per-edge inputs paired with the latency
drawn that edge, returning the final state. -/
def respondFinal (readable writeable : Bool) (s : RespState)
    (script : List (BusIn × Nat)) : RespState :=
  script.foldl (fun st p => (respondStep readable writeable p.2 st p.1).1) s

/-- Run the responder over a script, returning the state after each edge. -/
def respondStates (readable writeable : Bool) (s : RespState) :
    List (BusIn × Nat) → List RespState
  | [] => []
  | p :: rest =>
      (respondStep readable writeable p.2 s p.1).1 ::
        respondStates readable writeable (respondStep readable writeable p.2 s p.1).1 rest

/-- An idle edge: no strobe asserted. -/
def idleIn : BusIn := ⟨false, false, 0, 0⟩

/-- An edge with the read strobe asserted for address `a`. -/
def readIn (a : Nat) : BusIn := ⟨true, false, a, 0⟩

/-- An edge with the write strobe asserted for address `a`, data `v`. -/
def writeIn (a v : Nat) : BusIn := ⟨false, true, a, v⟩

/-- A freshly constructed responder over store `m`: empty response queue,
`readdata` never driven, `readdatavalid` initialised to 0 (avalon.py lines
200-204). -/
def freshState (m : List (Nat × Nat)) : RespState :=
  ⟨m, [], Sig.unknownX, false⟩

/-- Default state used with `List.getD`. -/
def stateD : RespState := freshState []

/-- A bus input is quiet for address `a` when it asserts no read strobe and
any write it asserts targets a different address.  Used to express "no
intervening write to A" between the master write and master read. -/
def quietForB (a : Nat) (i : BusIn) : Bool :=
  !i.read && (!i.write || !(i.address == a))

/-- The bus-input script generated by `AvalonMaster.write(a, v)` followed
(after `gaps` quiet cycles) by `AvalonMaster.read(a)` on a bus without a
waitrequest signal, as the responder samples it each rising edge
(avalon.py lines 101-164): the write strobe is seen for one edge, deasserted
the next edge; the read strobe is seen for one edge with drawn latency `l`,
and the master samples `readdata` at the settle point of the following edge. -/
def roundTripScript (a v : Nat) (gaps : List BusIn) (l : Nat) : List (BusIn × Nat) :=
  (writeIn a v, 0) :: (idleIn, 0) ::
    (gaps.map (fun i => (i, 0)) ++ [(readIn a, l), (idleIn, 0)])

/-- The value `AvalonMaster.read` returns in the composed run: the `readdata`
line at the settle point one edge after the read strobe edge (avalon.py lines
126-136, with the comment `Assume readLatency = 1`). -/
def roundTripSample (m : List (Nat × Nat)) (a v : Nat) (gaps : List BusIn)
    (l : Nat) : Sig :=
  (respondFinal true true (freshState m) (roundTripScript a v gaps l)).readdata

/-- The state mutated by `AvalonMaster.read`/`write`: the lock flag
`self.busy` and the bus lines the master drives. -/
structure MasterSt where
  busy : Bool
  busRead : Bool
  busWrite : Bool
  busAddress : Nat
  busWriteData : Nat
  deriving DecidableEq

/-- An all-idle master state. -/
def mzero : MasterSt := ⟨false, false, false, 0, 0⟩

/-- Errors escaping a master operation: the `TestError` raised by the
capability check (the CapabilityError of the spec taxonomy), or any runtime
error raised later in the body (for example sampling a missing `readdata`
signal). -/
inductive MErr where
  | capability
  | runtime
  deriving DecidableEq

/-- `AvalonMaster.read` (avalon.py lines 101-136) on a bus without a
waitrequest signal, for the uncontended-lock path.  `canRead` is
`self._can_read`; `sampleRes` is the outcome of `self.bus.readdata.value`
(`none` models that step raising).  The capability check precedes every state
change; there is no cleanup handler, so an error raised after the lock was
acquired propagates with `busy` still set — `_release_lock` runs only on the
normal path (line 135). -/
def masterRead (canRead : Bool) (sampleRes : Option Nat) (a : Nat) (s : MasterSt) :
    Except MErr Nat × MasterSt :=
  if !canRead then (Except.error MErr.capability, s)
  else
    let s1 := { s with busy := true }
    let s2 := { s1 with busAddress := a, busRead := true }
    let s3 := { s2 with busRead := false }
    match sampleRes with
    | none => (Except.error MErr.runtime, s3)
    | some v => (Except.ok v, { s3 with busy := false })

/-- `AvalonMaster.write` (avalon.py lines 138-164) on a bus without a
waitrequest signal, for the uncontended-lock path.  `canWrite` is
`self._can_write`; `driveOk = false` models the drive of `writedata` raising
(for example an oversized value).  As in `masterRead`, no cleanup handler
exists: `_release_lock` (line 164) runs only when no error was raised. -/
def masterWrite (canWrite : Bool) (driveOk : Bool) (a v : Nat) (s : MasterSt) :
    Except MErr Unit × MasterSt :=
  if !canWrite then (Except.error MErr.capability, s)
  else
    let s1 := { s with busy := true }
    if !driveOk then (Except.error MErr.runtime, { s1 with busAddress := a })
    else
      let s2 := { s1 with busAddress := a, busWriteData := v, busWrite := true }
      (Except.ok (), { s2 with busWrite := false, busy := false })

/-- The per-edge states of a responder left alone (idle inputs only) for `k`
edges. -/
def idleStates (m : List (Nat × Nat)) (q : List Resp) (d : Sig) (bv : Bool)
    (k : Nat) : List RespState :=
  respondStates true true ⟨m, q, d, bv⟩ (List.replicate k (idleIn, 0))

/-- The per-edge states of a responder that samples a read strobe for address
`a` at edge 0 (with drawn latency `l` for that edge) and is then left idle for
`k` further edges, starting from a fresh responder over store `m`.  Index `t`
of the list is the state during the cycle `t` edges after the issue edge. -/
def readLatStates (m : List (Nat × Nat)) (a l k : Nat) : List RespState :=
  respondStates true true (freshState m) ((readIn a, l) :: List.replicate k (idleIn, 0))

/-- Status of one task with respect to the `AvalonMaster` lock
(`self.busy` + `self.busy_event`, avalon.py lines 86-99): not yet started,
suspended on `busy_event.wait()`, woken by `busy_event.set()` but not yet
resumed by the scheduler, inside the critical section (it ran
`busy_event.clear(); busy = True`), or finished. -/
inductive TStat where
  | idle
  | blocked
  | woken
  | cs
  | done
  deriving DecidableEq

/-- State of the lock system: the `busy` flag, the `busy_event` fired flag,
and the status of each task (indexed by position). -/
structure LockSt where
  busy : Bool
  eventSet : Bool
  tasks : List TStat
  deriving DecidableEq

/-- Scheduler-level actions: `start t` runs task `t` from the top of
`_acquire_lock` up to its first suspension (or straight into the critical
section), `resume t` resumes a woken task at the statement after
`yield self.busy_event.wait()`, `release t` runs `_release_lock` for a task in
the critical section. -/
inductive LAct where
  | start (t : Nat)
  | resume (t : Nat)
  | release (t : Nat)
  deriving DecidableEq

/-- Whether an action is a `_release_lock` call. -/
def isRelease (a : LAct) : Bool :=
  match a with
  | LAct.release _ => true
  | _ => false

def getT : List TStat → Nat → TStat
  | [], _ => TStat.done
  | x :: _, 0 => x
  | _ :: rest, t + 1 => getT rest t

def setT : List TStat → Nat → TStat → List TStat
  | [], _, _ => []
  | _ :: rest, 0, x => x :: rest
  | y :: rest, t + 1, x => y :: setT rest t x

/-- `Event.set()` wakes every task currently suspended on the event. -/
def wakeOne (s : TStat) : TStat :=
  match s with
  | TStat.blocked => TStat.woken
  | x => x

/-- One scheduler action on the lock system, embedding `_acquire_lock`
(avalon.py lines 90-95) and `_release_lock` (lines 97-99).  The crucial
faithfulness point: a resumed waiter executes
`self.busy_event.clear(); self.busy = True` unconditionally — the code does
NOT re-check `busy` after `yield self.busy_event.wait()`. -/
def lockStep (s : LockSt) (a : LAct) : LockSt :=
  match a with
  | LAct.start t =>
      if getT s.tasks t = TStat.idle then
        if s.busy then
          if s.eventSet then { s with tasks := setT s.tasks t TStat.woken }
          else { s with tasks := setT s.tasks t TStat.blocked }
        else { s with eventSet := false, busy := true, tasks := setT s.tasks t TStat.cs }
      else s
  | LAct.resume t =>
      if getT s.tasks t = TStat.woken then
        { s with eventSet := false, busy := true, tasks := setT s.tasks t TStat.cs }
      else s
  | LAct.release t =>
      if getT s.tasks t = TStat.cs then
        { s with busy := false, eventSet := true, tasks := (setT s.tasks t TStat.done).map wakeOne }
      else s

/-- Run a schedule of actions. -/
def lockRun (s : LockSt) (acts : List LAct) : LockSt :=
  acts.foldl lockStep s

/-- Number of tasks currently inside the critical section. -/
def holders (s : LockSt) : Nat :=
  s.tasks.count TStat.cs

/-- Three idle tasks, lock free, event not fired (`Event` starts unfired,
`busy` starts `False`, avalon.py lines 86-87). -/
def lockInit3 : LockSt := ⟨false, false, [TStat.idle, TStat.idle, TStat.idle]⟩

/-- The schedule refuting mutual exclusion: task 0 acquires; tasks 1 and 2
find the lock busy and suspend; task 0 releases, waking both; each woken task
resumes and — without re-checking `busy` — marks the lock held and proceeds. -/
def lockCexActs : List LAct :=
  [LAct.start 0, LAct.start 1, LAct.start 2, LAct.release 0,
   LAct.resume 1, LAct.resume 2]

/-- The `AvalonSTPkts` configuration dictionary (avalon.py lines 265-270). -/
structure STConfig where
  dataBitsPerSymbol : Nat
  firstSymbolInHighOrderBits : Bool
  maxChannel : Nat
  readyLatency : Nat
  deriving DecidableEq

/-- `AvalonSTPkts._default_config`. -/
def stDefaultConfig : STConfig := ⟨8, true, 0, 0⟩

/-- The `config` keyword argument: each option independently present or
absent. -/
structure STOverrides where
  dataBitsPerSymbol : Option Nat
  firstSymbolInHighOrderBits : Option Bool
  maxChannel : Option Nat
  readyLatency : Option Nat
  deriving DecidableEq

/-- The error the spec says an unsupported ready latency must raise. -/
inductive STErr where
  | protocolViolation
  deriving DecidableEq

/-- The configuration produced by `AvalonSTPkts.__init__` (avalon.py lines
272-280): copy the defaults, then overwrite each provided option. -/
def stMerge (o : STOverrides) : STConfig :=
  ⟨o.dataBitsPerSymbol.getD stDefaultConfig.dataBitsPerSymbol,
   o.firstSymbolInHighOrderBits.getD stDefaultConfig.firstSymbolInHighOrderBits,
   o.maxChannel.getD stDefaultConfig.maxChannel,
   o.readyLatency.getD stDefaultConfig.readyLatency⟩

/-- `AvalonSTPkts.__init__` as a fallible constructor: the source performs no
validation of any option, so it always succeeds with the merged
configuration. -/
def stpktsInit (o : STOverrides) : Except STErr STConfig :=
  Except.ok (stMerge o)

/-- `AvalonSTPkts._wait_ready` (avalon.py lines 282-293) over the sequence of
`ready` samples at successive settle points: the number of extra edges waited
until the first high sample (`none` if ready never goes high).  The
configuration argument is taken but never consulted — the code assumes
`readyLatency = 0` (its own FIXME comment) regardless of the configured
value. -/
def waitReadyCycles (cfg : STConfig) : List Bool → Option Nat
  | [] => none
  | b :: rest => if b then some 0 else (waitReadyCycles cfg rest).map (· + 1)

/-- One word driven by `AvalonSTPkts._send_string` (avalon.py lines 295-364):
the start-of-packet and end-of-packet flags, the empty byte count, and the
data bytes packed into the word. -/
structure STWord where
  sop : Bool
  eop : Bool
  empty : Nat
  data : List Nat
  deriving DecidableEq

/-- Default word used with `List.getD`. -/
def wordD : STWord := ⟨false, false, 0, []⟩

/-- The word loop of `AvalonSTPkts._send_string` (avalon.py lines 318-355),
with `w` the bus width in bytes (`len(self.bus.data) / 8`, line 306) and
`fuel` a structural-recursion bound (any value at least `s.length` is exact,
since each iteration consumes at least one byte when `0 < w`).  Per the
source: the first word raises start-of-packet and drives empty 0 (lines
337-340); a word carrying the final bytes raises end-of-packet with
`empty = w - remaining` (lines 348-351); any other word keeps empty at 0 and
both flags low (lines 342, initial drive at 311-313). -/
def sendStringGo (w : Nat) : Nat → List Nat → Bool → List STWord
  | 0, _, _ => []
  | fuel + 1, s, first =>
      if s.isEmpty then []
      else if s.length ≤ w then [⟨first, true, w - s.length, s⟩]
      else ⟨first, false, 0, s.take w⟩ :: sendStringGo w fuel (s.drop w) false

/-- The words emitted for a whole byte string (entering the loop with
`firstword = True`, avalon.py line 303). -/
def sendStringWords (w : Nat) (s : List Nat) : List STWord :=
  sendStringGo w s.length s true

/-- Last element of a word list (`wordD` for the empty list). -/
def lastW : List STWord → STWord
  | [] => wordD
  | [x] => x
  | _ :: y :: rest => lastW (y :: rest)

/-- The `self.on` attribute of a `ValidatedBusDriver`: Python `True` (always
on) or an integer budget of remaining valid cycles. -/
inductive OnCnt where
  | always
  | cnt (n : Nat)
  deriving DecidableEq

/-- The idle-injection state of the driver: current on and off counts, and
the remaining draws of the caller-supplied on/off generator. -/
structure VGen where
  onv : OnCnt
  offv : Nat
  draws : List (Nat × Nat)
  deriving DecidableEq

/-- Modelled from the spec: `ValidatedBusDriver._next_valids` is not part of
the sources under verification (only its caller in avalon.py is).  Per the
spec, "off means hold valid low for a drawn number of cycles, then redraw
on/off counts; on is a remaining-cycle budget (or always on)": redrawing pops
the next (on, off) pair from the generator, and with no generator (or an
exhausted one) the driver is always on. -/
def nextValids (g : VGen) : VGen :=
  match g.draws with
  | [] => ⟨OnCnt.always, 0, []⟩
  | (a, b) :: rest => ⟨OnCnt.cnt a, b, rest⟩

/-- Python truthiness of `not self.on` (avalon.py line 323): only an exhausted
integer budget counts as off; `True` and positive budgets are on. -/
def isOffCnt (c : OnCnt) : Bool :=
  match c with
  | OnCnt.cnt 0 => true
  | _ => false

/-- `if self.on is not True and self.on: self.on -= 1` (avalon.py lines
332-333): decrement a positive integer budget, leave `True` and 0 alone. -/
def decrCnt (c : OnCnt) : OnCnt :=
  match c with
  | OnCnt.cnt (n + 1) => OnCnt.cnt n
  | x => x

/-- One bus cycle as the packet drivers drive it: the `valid` line, and
whether the cycle is one of the `self.off` cycles chosen as "off" by the
generator. -/
structure TCyc where
  valid : Bool
  off : Bool
  deriving DecidableEq

/-- The cycle trace of the word loops of `AvalonSTPkts._send_string`
(avalon.py lines 318-355) and `_send_iterable` (lines 377-397), which share
the same gap logic, driven by the number of words to send.  Per word: when
the on budget is exhausted, drive `valid` low for the drawn off count of
cycles (lines 323-326 and 384-387), redraw, then decrement the (possibly
fresh) budget and drive the word with `valid` high (lines 332-335 and
393-397).  After the loop, one trailing cycle with `valid` deasserted (lines
362-363 and 404-405). -/
def sendCycles : Nat → VGen → List TCyc
  | 0, _ => [⟨false, false⟩]
  | n + 1, g =>
      if isOffCnt g.onv then
        List.replicate g.offv ⟨false, true⟩ ++ ⟨true, false⟩ ::
          sendCycles n ⟨decrCnt (nextValids g).onv, (nextValids g).offv, (nextValids g).draws⟩
      else
        ⟨true, false⟩ :: sendCycles n ⟨decrCnt g.onv, g.offv, g.draws⟩

/-- Cycle trace of `_send_string` for byte string `s` on a `w`-byte bus. -/
def sendStringCycles (w : Nat) (s : List Nat) (g : VGen) : List TCyc :=
  sendCycles (sendStringWords w s).length g

/-- Cycle trace of `_send_iterable` for a packet of pre-built words. -/
def sendIterCycles (pkt : List Nat) (g : VGen) : List TCyc :=
  sendCycles pkt.length g

@[simp] theorem drive_responses (s : RespState) (r : Resp) :
    (drive s r).responses = s.responses := by
  cases r <;> rfl

@[simp] theorem drive_mem (s : RespState) (r : Resp) :
    (drive s r).mem = s.mem := by
  cases r <;> rfl

@[simp] theorem memGet_memSet_self (m : List (Nat × Nat)) (a v : Nat) :
    memGet (memSet m a v) a = some v := by
  simp [memSet, memGet]

theorem memGet_memSet_ne (m : List (Nat × Nat)) (a b v : Nat) (h : b ≠ a) :
    memGet (memSet m b v) a = memGet m a := by
  simp [memSet, memGet, h]

theorem respOf_ne_noresp (m : List (Nat × Nat)) (a : Nat) :
    respOf m a ≠ Resp.noresp := by
  unfold respOf
  cases memGet m a <;> simp

theorem respondStep_quiet (a : Nat) (i : BusIn) (l : Nat) (m : List (Nat × Nat))
    (d : Sig) (bv : Bool) (h : quietForB a i = true) :
    (respondStep true true l ⟨m, [], d, bv⟩ i).1.responses = [] ∧
    (respondStep true true l ⟨m, [], d, bv⟩ i).1.readdata = d ∧
    memGet (respondStep true true l ⟨m, [], d, bv⟩ i).1.mem a = memGet m a := by
  cases i with
  | mk rd wr addr wd =>
    cases rd with
    | true => simp [quietForB] at h
    | false =>
      cases wr with
      | false => simp [respondStep, drive]
      | true =>
        have haddr : addr ≠ a := by
          simp [quietForB] at h
          exact h
        simp [respondStep, drive, memGet_memSet_ne _ _ _ _ haddr]

theorem respondFinal_quiet (a : Nat) (gaps : List BusIn) :
    ∀ (m : List (Nat × Nat)) (d : Sig) (bv : Bool),
    (∀ i ∈ gaps, quietForB a i = true) →
    (respondFinal true true ⟨m, [], d, bv⟩ (gaps.map (fun i => (i, 0)))).responses = [] ∧
    (respondFinal true true ⟨m, [], d, bv⟩ (gaps.map (fun i => (i, 0)))).readdata = d ∧
    memGet (respondFinal true true ⟨m, [], d, bv⟩ (gaps.map (fun i => (i, 0)))).mem a
      = memGet m a := by
  induction gaps with
  | nil => intro m d bv _; simp [respondFinal]
  | cons i rest ih =>
      intro m d bv h
      have hi : quietForB a i = true := h i (List.mem_cons_self i rest)
      have hrest : ∀ j ∈ rest, quietForB a j = true :=
        fun j hj => h j (List.mem_cons_of_mem i hj)
      have hstep := respondStep_quiet a i 0 m d bv hi
      obtain ⟨h1, h2, h3⟩ := hstep
      have hshape : (respondStep true true 0 ⟨m, [], d, bv⟩ i).1 =
          ⟨(respondStep true true 0 ⟨m, [], d, bv⟩ i).1.mem, [], d,
            (respondStep true true 0 ⟨m, [], d, bv⟩ i).1.readdatavalid⟩ := by
        cases hr : (respondStep true true 0 ⟨m, [], d, bv⟩ i).1
        simp_all
      simp only [List.map_cons, respondFinal, List.foldl_cons]
      rw [hshape]
      have := ih (respondStep true true 0 ⟨m, [], d, bv⟩ i).1.mem d
        (respondStep true true 0 ⟨m, [], d, bv⟩ i).1.readdatavalid hrest
      simp only [respondFinal] at this
      refine ⟨this.1, this.2.1, ?_⟩
      rw [this.2.2, h3]

theorem respondFinal_cons (rd wr : Bool) (s : RespState) (i : BusIn) (l : Nat)
    (rest : List (BusIn × Nat)) :
    respondFinal rd wr s ((i, l) :: rest)
      = respondFinal rd wr (respondStep rd wr l s i).1 rest := rfl

theorem respondFinal_append (rd wr : Bool) (s : RespState)
    (xs ys : List (BusIn × Nat)) :
    respondFinal rd wr s (xs ++ ys)
      = respondFinal rd wr (respondFinal rd wr s xs) ys := by
  simp [respondFinal]

theorem readThenSample (M : List (Nat × Nat)) (B : Bool) (a v : Nat)
    (hv : memGet M a = some v) :
    (respondFinal true true ⟨M, [], Sig.unknownX, B⟩
      [(readIn a, 0), (idleIn, 0)]).readdata = Sig.value v := by
  have h1 : (respondStep true true 0 ⟨M, [], Sig.unknownX, B⟩ (readIn a)).1
      = ⟨M, [Resp.val v], Sig.unknownX, false⟩ := by
    simp [respondStep, readIn, drive, padTo, respOf, hv]
  rw [respondFinal_cons, h1, respondFinal_cons]
  rfl

/-- C1 (amended): writing V to A through `AvalonMaster.write` and then reading
A through `AvalonMaster.read`, with only quiet cycles (no read strobe, no
write to A) in between, returns V — provided the responder drew read
latency 0.  The master samples `readdata` exactly one edge after asserting
the read strobe (avalon.py lines 124-133), while the responder delivers the
value `l + 1` edges after sampling the strobe, so the two agree only for a
drawn latency `l = 0`. -/
theorem avalonC1_roundTrip (m : List (Nat × Nat)) (a v : Nat) (gaps : List BusIn)
    (h : ∀ i ∈ gaps, quietForB a i = true) :
    roundTripSample m a v gaps 0 = Sig.value v := by
  rw [roundTripSample, roundTripScript, respondFinal_cons, respondFinal_cons]
  have hS2 : (respondStep true true 0
      ((respondStep true true 0 (freshState m) (writeIn a v)).1) idleIn).1
      = ⟨memSet m a v, [], Sig.unknownX, false⟩ := rfl
  rw [hS2, respondFinal_append]
  have hq := respondFinal_quiet a gaps (memSet m a v) Sig.unknownX false h
  obtain ⟨h1, h2, h3⟩ := hq
  have hv : memGet (respondFinal true true ⟨memSet m a v, [], Sig.unknownX, false⟩
      (gaps.map (fun i => (i, 0)))).mem a = some v := by
    rw [h3, memGet_memSet_self]
  have hshape : respondFinal true true ⟨memSet m a v, [], Sig.unknownX, false⟩
        (gaps.map (fun i => (i, 0)))
      = ⟨(respondFinal true true ⟨memSet m a v, [], Sig.unknownX, false⟩
            (gaps.map (fun i => (i, 0)))).mem, [], Sig.unknownX,
          (respondFinal true true ⟨memSet m a v, [], Sig.unknownX, false⟩
            (gaps.map (fun i => (i, 0)))).readdatavalid⟩ := by
    cases hr : respondFinal true true ⟨memSet m a v, [], Sig.unknownX, false⟩
      (gaps.map (fun i => (i, 0)))
    simp_all
  rw [hshape]
  exact readThenSample _ _ a v hv

/-- C1 witness: a concrete instantiation of the amended round trip, with one
intervening write to a different address. -/
theorem avalonC1_roundTrip_witness :
    roundTripSample [] 0 5 [writeIn 1 9] 0 = Sig.value 5 :=
  avalonC1_roundTrip [] 0 5 [writeIn 1 9] (by decide)

/-- C1 counterexample: with the default responder configuration
`readlatency_min = readlatency_max = 1` the drawn latency is forced to 1, and
the claimed round trip fails — the master samples `readdata` one edge before
the responder drives value 5 for address 0, so it returns the undriven X
state instead of 5. -/
theorem avalonC1_default_latency_cex :
    roundTripSample [] 0 5 [] 1 = Sig.unknownX ∧
    roundTripSample [] 0 5 [] 1 ≠ Sig.value 5 := by
  decide

/-- C8: `AvalonMaster.read` fails with the capability error exactly when the
bus has no read signal, `AvalonMaster.write` exactly when it has no write
signal, and in either failure case the state (lock and bus lines) is returned
unmodified — the check is the first statement of each method (avalon.py lines
109-111 and 145-147). -/
theorem avalonC8_capability (canRead canWrite : Bool) (sampleRes : Option Nat)
    (driveOk : Bool) (a v : Nat) (s : MasterSt) :
    ((masterRead canRead sampleRes a s).1 = Except.error MErr.capability
      ↔ canRead = false) ∧
    (canRead = false → (masterRead canRead sampleRes a s).2 = s) ∧
    ((masterWrite canWrite driveOk a v s).1 = Except.error MErr.capability
      ↔ canWrite = false) ∧
    (canWrite = false → (masterWrite canWrite driveOk a v s).2 = s) := by
  cases canRead <;> cases canWrite <;> cases sampleRes <;> cases driveOk <;>
    simp [masterRead, masterWrite]

/-- C8 witness: concrete read-only and write-only failures leave the state
untouched. -/
theorem avalonC8_capability_witness :
    (masterRead false (some 0) 3 mzero).2 = mzero ∧
    (masterWrite false true 3 7 mzero).2 = mzero :=
  ⟨(avalonC8_capability false false (some 0) true 3 7 mzero).2.1 rfl,
   (avalonC8_capability false false (some 0) true 3 7 mzero).2.2.2 rfl⟩

/-- C6 counterexample: an error raised inside `AvalonMaster.read` after the
lock was acquired (here: sampling `readdata` raises) propagates with the lock
still held — `busy` is `true` on the error exit path, not `false` as the
claim requires, because the method body has no cleanup handler. -/
theorem avalonC6_lock_leak_cex :
    (masterRead true none 3 mzero).1 = Except.error MErr.runtime ∧
    (masterRead true none 3 mzero).2.busy = true ∧
    ¬ (masterRead true none 3 mzero).2.busy = false := by
  refine ⟨rfl, rfl, ?_⟩
  decide

/-- C6 (amended): the lock is released on the normal completion path of
`read`/`write`, but on any exit path that raises after acquisition the lock
stays held, so a failed operation blocks every later caller. -/
theorem avalonC6_lock_release_paths (a v vv : Nat) (s : MasterSt) :
    ((masterRead true none a s).1 = Except.error MErr.runtime ∧
      (masterRead true none a s).2.busy = true) ∧
    ((masterRead true (some vv) a s).1 = Except.ok vv ∧
      (masterRead true (some vv) a s).2.busy = false) ∧
    ((masterWrite true false a v s).1 = Except.error MErr.runtime ∧
      (masterWrite true false a v s).2.busy = true) ∧
    ((masterWrite true true a v s).1 = Except.ok () ∧
      (masterWrite true true a v s).2.busy = false) := by
  simp [masterRead, masterWrite]

theorem respondStates_cons (rd wr : Bool) (s : RespState) (i : BusIn) (l : Nat)
    (rest : List (BusIn × Nat)) :
    respondStates rd wr s ((i, l) :: rest)
      = (respondStep rd wr l s i).1
        :: respondStates rd wr (respondStep rd wr l s i).1 rest := rfl

theorem idleStates_pad (l : Nat) :
    ∀ (k : Nat) (m : List (Nat × Nat)) (d : Sig) (bv : Bool) (r : Resp),
    r ≠ Resp.noresp → l + 1 ≤ k →
    (∀ t, t < l →
      ((idleStates m (List.replicate l Resp.noresp ++ [r]) d bv k).getD t stateD).readdatavalid
          = false ∧
      ((idleStates m (List.replicate l Resp.noresp ++ [r]) d bv k).getD t stateD).readdata
          = d) ∧
    ((idleStates m (List.replicate l Resp.noresp ++ [r]) d bv k).getD l stateD).readdata
        = respSig r ∧
    ((idleStates m (List.replicate l Resp.noresp ++ [r]) d bv k).getD l stateD).readdatavalid
        = true := by
  induction l with
  | zero =>
      intro k m d bv r hr hk
      match k, hk with
      | k1 + 1, _ =>
        refine ⟨fun t ht => absurd ht (Nat.not_lt_zero t), ?_⟩
        have hstep : (respondStep true true 0 ⟨m, [r], d, bv⟩ idleIn).1
            = ⟨m, [], respSig r, true⟩ := by
          cases r with
          | noresp => exact absurd rfl hr
          | undef => rfl
          | val v => rfl
        simp only [idleStates, List.replicate_succ, List.replicate_zero,
          List.nil_append, respondStates_cons, hstep, List.getD_cons_zero]
        simp
  | succ l ih =>
      intro k m d bv r hr hk
      match k, hk with
      | k1 + 1, hk =>
        have hk1 : l + 1 ≤ k1 := by omega
        have hstep : (respondStep true true 0
            ⟨m, Resp.noresp :: (List.replicate l Resp.noresp ++ [r]), d, bv⟩ idleIn).1
            = ⟨m, List.replicate l Resp.noresp ++ [r], d, false⟩ := rfl
        have ihk := ih k1 m d false r hr hk1
        simp only [idleStates, List.replicate_succ, List.cons_append,
          respondStates_cons, hstep] at *
        refine ⟨?_, ?_, ?_⟩
        · intro t ht
          match t with
          | 0 => exact ⟨rfl, rfl⟩
          | t1 + 1 =>
              have ht1 : t1 < l := by omega
              simpa using (ihk.1 t1 ht1)
        · simpa using ihk.2.1
        · simpa using ihk.2.2

/-- C3 (amended): a read issued at cycle T with drawn latency
`l ∈ [readlatency_min, readlatency_max]` and an empty response queue gets no
response (`readdatavalid` low) for the issue cycle and the `l` cycles after
it, and is answered — with the stored value, or the all-x marker for an
unwritten address — exactly at cycle T + l + 1, hence within
[T + min + 1, T + max + 1], one cycle later than the claimed
[T + min, T + max]. -/
theorem avalonC3_read_latency (m : List (Nat × Nat)) (a l minL maxL k : Nat)
    (h1 : minL ≤ l) (h2 : l ≤ maxL) (h3 : l + 1 ≤ k) :
    (∀ t, t ≤ l → ((readLatStates m a l k).getD t stateD).readdatavalid = false) ∧
    ((readLatStates m a l k).getD (l + 1) stateD).readdata = respSig (respOf m a) ∧
    ((readLatStates m a l k).getD (l + 1) stateD).readdatavalid = true ∧
    minL + 1 ≤ l + 1 ∧ l + 1 ≤ maxL + 1 := by
  have hstep : (respondStep true true l (freshState m) (readIn a)).1
      = ⟨m, List.replicate l Resp.noresp ++ [respOf m a], Sig.unknownX, false⟩ := by
    simp [respondStep, freshState, readIn, drive, padTo]
  have hpad := idleStates_pad l k m Sig.unknownX false (respOf m a)
    (respOf_ne_noresp m a) h3
  simp only [readLatStates, respondStates_cons, hstep]
  refine ⟨?_, ?_, ?_, by omega, by omega⟩
  · intro t ht
    match t with
    | 0 => rfl
    | t1 + 1 =>
        have ht1 : t1 < l := by omega
        simpa [idleStates] using (hpad.1 t1 ht1).1
  · simpa [idleStates] using hpad.2.1
  · simpa [idleStates] using hpad.2.2

/-- C3 witness: store holding 9 at address 3, drawn latency 2 — the answer
arrives 3 cycles after issuance with the stored value. -/
theorem avalonC3_read_latency_witness :
    ((readLatStates [(3, 9)] 3 2 3).getD 3 stateD).readdata
      = respSig (respOf [(3, 9)] 3) :=
  (avalonC3_read_latency [(3, 9)] 3 2 2 2 3 (by decide) (by decide) (by decide)).2.1

/-- C3 counterexample: with `readlatency_min = readlatency_max = 2` (so the
drawn latency is forced to 2), a read of address 3 (stored value 9) issued at
cycle 0 is not answered at any cycle up to T + 2 — `readdatavalid` stays low —
and the value arrives only at cycle T + 3, contradicting the claimed window
[T + min, T + max] = {2} and the claimed 2nd-cycle arrival. -/
theorem avalonC3_latency2_cex :
    ((readLatStates [(3, 9)] 3 2 3).getD 0 stateD).readdatavalid = false ∧
    ((readLatStates [(3, 9)] 3 2 3).getD 1 stateD).readdatavalid = false ∧
    ((readLatStates [(3, 9)] 3 2 3).getD 2 stateD).readdatavalid = false ∧
    ((readLatStates [(3, 9)] 3 2 3).getD 3 stateD).readdatavalid = true ∧
    ((readLatStates [(3, 9)] 3 2 3).getD 3 stateD).readdata = Sig.value 9 := by
  decide

/-- C5 (amended): on a cycle where read and write strobes are asserted
together for address `a`, the responder appends the read response computed
from the store as it was BEFORE the write of that cycle (`_respond` handles
the read branch, avalon.py lines 239-247, before the write branch, lines
249-253), and only then commits the write; the write is visible to reads of
later cycles. -/
theorem avalonC5_read_before_write (s : RespState) (a dta l : Nat) :
    (respondStep true true l s ⟨true, true, a, dta⟩).1.responses
      = padTo l s.responses.tail ++ [respOf s.mem a] ∧
    memGet (respondStep true true l s ⟨true, true, a, dta⟩).1.mem a = some dta := by
  constructor
  · simp [respondStep]
  · simp [respondStep]

/-- C5 counterexample: store holds 3 at address 5; a same-cycle read+write of
7 to address 5 enqueues the OLD value 3 as the read response, not the value 7
written that cycle as the claim states — even though the write itself does
land in the store. -/
theorem avalonC5_same_cycle_cex :
    (respondStep true true 0 ⟨[(5, 3)], [], Sig.unknownX, false⟩
        ⟨true, true, 5, 7⟩).1.responses = [Resp.val 3] ∧
    (respondStep true true 0 ⟨[(5, 3)], [], Sig.unknownX, false⟩
        ⟨true, true, 5, 7⟩).1.responses ≠ [Resp.val 7] ∧
    memGet (respondStep true true 0 ⟨[(5, 3)], [], Sig.unknownX, false⟩
        ⟨true, true, 5, 7⟩).1.mem 5 = some 7 := by
  decide

/-- C10: a read of a never-written address appends the undefined marker to the
response queue (after the latency padding), logs exactly one warning, leaves
the store untouched, and — when that marker reaches the head of the queue —
drives the all-x value with `readdatavalid` high; the step is a total
function, so no exception aborts the run. -/
theorem avalonC10_uninitialised_read (s : RespState) (a l : Nat)
    (hm : memGet s.mem a = none) (hq : s.responses = []) :
    (respondStep true true l s (readIn a)).1.responses
      = List.replicate l Resp.noresp ++ [Resp.undef] ∧
    (respondStep true true l s (readIn a)).2 = 1 ∧
    (respondStep true true l s (readIn a)).1.mem = s.mem ∧
    (∀ (m2 : List (Nat × Nat)) (q : List Resp) (d : Sig) (bv : Bool),
      (respondStep true true l ⟨m2, Resp.undef :: q, d, bv⟩ idleIn).1.readdata
          = Sig.allX ∧
      (respondStep true true l ⟨m2, Resp.undef :: q, d, bv⟩ idleIn).1.readdatavalid
          = true) := by
  refine ⟨?_, ?_, ?_, ?_⟩
  · simp [respondStep, readIn, padTo, respOf, hm, hq]
  · simp [respondStep, readIn, warnOf, hm]
  · simp [respondStep, readIn]
  · intro m2 q d bv
    exact ⟨rfl, rfl⟩

/-- C10 witness: reading address 0x10 of an empty store with drawn latency 2
logs exactly one warning. -/
theorem avalonC10_uninitialised_read_witness :
    (respondStep true true 2 (freshState []) (readIn 16)).2 = 1 :=
  (avalonC10_uninitialised_read (freshState []) 16 2 (by decide) (by decide)).2.1

theorem getT_setT_ne : ∀ (ts : List TStat) (u t : Nat) (x : TStat), t ≠ u →
    getT (setT ts u x) t = getT ts t := by
  intro ts
  induction ts with
  | nil => intro u t x _; cases u <;> rfl
  | cons y rest ih =>
      intro u t x hne
      cases u with
      | zero =>
          cases t with
          | zero => exact absurd rfl hne
          | succ t1 => rfl
      | succ u1 =>
          cases t with
          | zero => rfl
          | succ t1 => exact ih u1 t1 x (fun he => hne (by rw [he]))

theorem lockStep_keeps_blocked (s : LockSt) (a : LAct) (t : Nat)
    (hrel : isRelease a = false) (hb : getT s.tasks t = TStat.blocked) :
    getT (lockStep s a).tasks t = TStat.blocked := by
  cases s with
  | mk busy eventSet tasks =>
    cases a with
    | start u =>
        by_cases hu : getT tasks u = TStat.idle
        · have hne : t ≠ u := by
            intro he; rw [he, hu] at hb; cases hb
          cases busy <;> cases eventSet <;>
            simp [lockStep, hu, getT_setT_ne, hne, hb]
        · simp only [lockStep, if_neg hu]
          exact hb
    | resume u =>
        by_cases hu : getT tasks u = TStat.woken
        · have hne : t ≠ u := by
            intro he; rw [he, hu] at hb; cases hb
          simp only [lockStep, if_pos hu]
          rw [getT_setT_ne _ _ _ _ hne]; exact hb
        · simp only [lockStep, if_neg hu]
          exact hb
    | release u => simp [isRelease] at hrel

/-- C2 (amended): the surviving half of the claim — a task that found the
lock busy and suspended can never proceed before some `_release_lock` call:
under any schedule containing no release action it stays blocked.  The other
half fails (see the counterexample): a woken waiter does not re-check the
held state, so one release can admit two waiters at once. -/
theorem avalonC2_no_release_no_entry (acts : List LAct) :
    ∀ (s : LockSt) (t : Nat), (∀ a ∈ acts, isRelease a = false) →
    getT s.tasks t = TStat.blocked →
    getT (lockRun s acts).tasks t = TStat.blocked := by
  induction acts with
  | nil => intro s t _ hb; exact hb
  | cons a rest ih =>
      intro s t h hb
      have ha : isRelease a = false := h a (List.mem_cons_self a rest)
      have hrest : ∀ b ∈ rest, isRelease b = false :=
        fun b hbm => h b (List.mem_cons_of_mem a hbm)
      simp only [lockRun, List.foldl_cons]
      exact ih (lockStep s a) t hrest (lockStep_keeps_blocked s a t ha hb)

/-- C2 witness: with the lock held by task 0 and task 1 blocked, a schedule
that only tries to start task 1 again (and never releases) leaves task 1
blocked. -/
theorem avalonC2_no_release_no_entry_witness :
    getT (lockRun ⟨true, false, [TStat.cs, TStat.blocked]⟩ [LAct.start 1]).tasks 1
      = TStat.blocked :=
  avalonC2_no_release_no_entry [LAct.start 1] ⟨true, false, [TStat.cs, TStat.blocked]⟩ 1
    (by decide) (by decide)

/-- C2 counterexample: in the schedule `lockCexActs` a single release wakes
the two waiting tasks and both proceed into the critical section — two tasks
hold the lock at once, and the second waiter proceeds while the first woken
waiter still holds the lock, because `_acquire_lock` does not re-check `busy`
after `yield self.busy_event.wait()` (avalon.py lines 92-95). -/
theorem avalonC2_mutual_exclusion_cex :
    holders (lockRun lockInit3 lockCexActs) = 2 ∧
    ¬ holders (lockRun lockInit3 lockCexActs) ≤ 1 := by
  decide

/-- C7 (amended): `AvalonSTPkts.__init__` accepts any `readyLatency` value
without raising — there is no ProtocolViolation at configuration time — and
`_wait_ready` ignores the configured value entirely, behaving identically to
the zero-latency default on first (and every) use. -/
theorem avalonC7_readyLatency_ignored (o : STOverrides) (c : STConfig)
    (t : List Bool) :
    stpktsInit o = Except.ok (stMerge o) ∧
    waitReadyCycles c t = waitReadyCycles stDefaultConfig t := by
  refine ⟨rfl, ?_⟩
  induction t with
  | nil => rfl
  | cons b rest ih => cases b <;> simp [waitReadyCycles, ih]

/-- C7 counterexample: configuring `readyLatency = 1` succeeds (no
ProtocolViolation is raised at configuration time), the unsupported value is
silently stored, and the first use of `_wait_ready` proceeds normally with
zero-latency behavior. -/
theorem avalonC7_no_violation_cex :
    stpktsInit ⟨none, none, none, some 1⟩ = Except.ok ⟨8, true, 0, 1⟩ ∧
    (stMerge ⟨none, none, none, some 1⟩).readyLatency = 1 ∧
    waitReadyCycles (stMerge ⟨none, none, none, some 1⟩) [false, true] = some 1 :=
  ⟨rfl, rfl, rfl⟩

theorem lastW_cons (x : STWord) (l : List STWord) (h : l ≠ []) :
    lastW (x :: l) = lastW l := by
  cases l with
  | nil => exact absurd rfl h
  | cons y rest => rfl

theorem ceil_div_one (w n : Nat) (hw : 0 < w) (h1 : 1 ≤ n) (h2 : n ≤ w) :
    (n + w - 1) / w = 1 := by
  have he : n + w - 1 = (n - 1) + w := by omega
  rw [he, Nat.add_div_right _ hw, Nat.div_eq_of_lt (by omega)]

theorem ceil_div_step (w n : Nat) (hw : 0 < w) (h : w < n) :
    (n + w - 1) / w = (n - w + w - 1) / w + 1 := by
  have he : n + w - 1 = ((n - w) + w - 1) + w := by omega
  rw [he, Nat.add_div_right _ hw]

theorem empty_of_last (w n : Nat) (hw : 0 < w) (h1 : 1 ≤ n) (h2 : n ≤ w) :
    (w - n % w) % w = w - n := by
  rcases Nat.lt_or_ge n w with hlt | hge
  · rw [Nat.mod_eq_of_lt hlt, Nat.mod_eq_of_lt (by omega)]
  · have hn : n = w := by omega
    subst hn
    simp [Nat.mod_self]

theorem ssg_ne_nil (w fuel : Nat) (s : List Nat) (first : Bool)
    (hf : s.length ≤ fuel) (hs : s ≠ []) :
    sendStringGo w fuel s first ≠ [] := by
  cases fuel with
  | zero =>
      exact absurd (List.length_eq_zero.mp (Nat.le_zero.mp hf)) hs
  | succ fuel =>
      have he : s.isEmpty = false := by
        simp [List.isEmpty_iff, hs]
      by_cases hle : s.length ≤ w <;> simp [sendStringGo, he, hle]

theorem ssg_length (w : Nat) (hw : 0 < w) :
    ∀ (fuel : Nat) (s : List Nat) (first : Bool), s.length ≤ fuel → s ≠ [] →
    (sendStringGo w fuel s first).length = (s.length + w - 1) / w := by
  intro fuel
  induction fuel with
  | zero =>
      intro s first hf hs
      exact absurd (List.length_eq_zero.mp (Nat.le_zero.mp hf)) hs
  | succ fuel ih =>
      intro s first hf hs
      have he : s.isEmpty = false := by
        simp [List.isEmpty_iff, hs]
      have h1 : 1 ≤ s.length := List.length_pos.mpr hs
      by_cases hle : s.length ≤ w
      · simp [sendStringGo, he, hle, ceil_div_one w s.length hw h1 hle]
      · push_neg at hle
        have hdl : (s.drop w).length = s.length - w := List.length_drop w s
        have hne : s.drop w ≠ [] := by
          intro h0
          have := congrArg List.length h0
          rw [hdl] at this
          simp at this
          omega
        have hfl : (s.drop w).length ≤ fuel := by omega
        simp only [sendStringGo, he, Bool.false_eq_true, if_false,
          if_neg (by omega : ¬ s.length ≤ w), List.length_cons,
          ih (s.drop w) false hfl hne, hdl]
        rw [ceil_div_step w s.length hw hle]

theorem ssg_head_sop (w fuel : Nat) (s : List Nat) (first : Bool)
    (hf : s.length ≤ fuel) (hs : s ≠ []) :
    ((sendStringGo w fuel s first).headD wordD).sop = first := by
  cases fuel with
  | zero =>
      exact absurd (List.length_eq_zero.mp (Nat.le_zero.mp hf)) hs
  | succ fuel =>
      have he : s.isEmpty = false := by
        simp [List.isEmpty_iff, hs]
      by_cases hle : s.length ≤ w <;> simp [sendStringGo, he, hle]

theorem ssg_mid (w : Nat) (hw : 0 < w) :
    ∀ (fuel : Nat) (s : List Nat) (first : Bool) (i : Nat), s.length ≤ fuel →
    i + 1 < (sendStringGo w fuel s first).length →
    ((sendStringGo w fuel s first).getD i wordD).eop = false ∧
    ((sendStringGo w fuel s first).getD i wordD).empty = 0 ∧
    ((sendStringGo w fuel s first).getD i wordD).sop
      = (if i = 0 then first else false) := by
  intro fuel
  induction fuel with
  | zero =>
      intro s first i _ hi
      simp [sendStringGo] at hi
  | succ fuel ih =>
      intro s first i hf hi
      by_cases hs : s = []
      · subst hs
        simp [sendStringGo] at hi
      have he : s.isEmpty = false := by
        simp [List.isEmpty_iff, hs]
      by_cases hle : s.length ≤ w
      · simp [sendStringGo, he, hle] at hi
      · have hdl : (s.drop w).length = s.length - w := List.length_drop w s
        have hfl : (s.drop w).length ≤ fuel := by omega
        simp only [sendStringGo, he, Bool.false_eq_true, if_false,
          if_neg hle] at hi ⊢
        cases i with
        | zero => simp
        | succ j =>
            simp only [List.length_cons] at hi
            have hj : j + 1 < (sendStringGo w fuel (s.drop w) false).length := by
              omega
            have := ih (s.drop w) false j hfl hj
            simp only [List.getD_cons_succ]
            refine ⟨this.1, this.2.1, ?_⟩
            rw [this.2.2]
            simp

theorem ssg_last (w : Nat) (hw : 0 < w) :
    ∀ (fuel : Nat) (s : List Nat) (first : Bool), s.length ≤ fuel → s ≠ [] →
    (lastW (sendStringGo w fuel s first)).eop = true ∧
    (lastW (sendStringGo w fuel s first)).empty = (w - s.length % w) % w := by
  intro fuel
  induction fuel with
  | zero =>
      intro s first hf hs
      exact absurd (List.length_eq_zero.mp (Nat.le_zero.mp hf)) hs
  | succ fuel ih =>
      intro s first hf hs
      have he : s.isEmpty = false := by
        simp [List.isEmpty_iff, hs]
      have h1 : 1 ≤ s.length := List.length_pos.mpr hs
      by_cases hle : s.length ≤ w
      · simp only [sendStringGo, he, Bool.false_eq_true, if_false, if_pos hle]
        rw [empty_of_last w s.length hw h1 hle]
        exact ⟨rfl, rfl⟩
      · push_neg at hle
        have hdl : (s.drop w).length = s.length - w := List.length_drop w s
        have hne : s.drop w ≠ [] := by
          intro h0
          have := congrArg List.length h0
          rw [hdl] at this
          simp at this
          omega
        have hfl : (s.drop w).length ≤ fuel := by omega
        have hrest : sendStringGo w fuel (s.drop w) false ≠ [] :=
          ssg_ne_nil w fuel (s.drop w) false hfl hne
        simp only [sendStringGo, he, Bool.false_eq_true, if_false,
          if_neg (by omega : ¬ s.length ≤ w)]
        rw [lastW_cons _ _ hrest]
        have := ih (s.drop w) false hfl hne
        rw [hdl] at this
        have hmod : s.length % w = (s.length - w) % w :=
          Nat.mod_eq_sub_mod (by omega)
        rw [hmod]
        exact this

/-- C4: a nonempty byte string of `n` bytes on a bus `w` bytes wide is sent as
the ceiling of n / w words; the first word asserts start-of-packet, the final
word asserts end-of-packet with empty byte count `w - remaining` (expressed
as `(w - n % w) % w`), and every intermediate word asserts neither flag and
drives empty 0 — avalon.py lines 337-355.  Instantiated at `w = 4`, `n = 9`
this gives 3 words with flags (sop, 0), (0, 0), (eop, empty 3). -/
theorem avalonC4_packetize (w : Nat) (s : List Nat) (hw : 0 < w) (hs : s ≠ []) :
    (sendStringWords w s).length = (s.length + w - 1) / w ∧
    ((sendStringWords w s).headD wordD).sop = true ∧
    (lastW (sendStringWords w s)).eop = true ∧
    (lastW (sendStringWords w s)).empty = (w - s.length % w) % w ∧
    (∀ i, 0 < i → i + 1 < (sendStringWords w s).length →
      ((sendStringWords w s).getD i wordD).sop = false ∧
      ((sendStringWords w s).getD i wordD).eop = false ∧
      ((sendStringWords w s).getD i wordD).empty = 0) := by
  have hlast := ssg_last w hw s.length s true (Nat.le_refl _) hs
  refine ⟨ssg_length w hw s.length s true (Nat.le_refl _) hs,
    ssg_head_sop w s.length s true (Nat.le_refl _) hs,
    hlast.1, hlast.2, ?_⟩
  intro i hpos hi
  simp only [sendStringWords] at hi ⊢
  have := ssg_mid w hw s.length s true i (Nat.le_refl _) hi
  refine ⟨?_, this.1, this.2.1⟩
  rw [this.2.2]
  simp [Nat.pos_iff_ne_zero.mp hpos]

/-- C4 witness: the claimed concrete scenario — 9 bytes on a 4-byte bus make
3 words, the last with empty count 3 and end-of-packet set, the first with
start-of-packet set. -/
theorem avalonC4_packetize_witness :
    (sendStringWords 4 [0, 1, 2, 3, 4, 5, 6, 7, 8]).length = 3 ∧
    ((sendStringWords 4 [0, 1, 2, 3, 4, 5, 6, 7, 8]).headD wordD).sop = true ∧
    (lastW (sendStringWords 4 [0, 1, 2, 3, 4, 5, 6, 7, 8])).eop = true ∧
    (lastW (sendStringWords 4 [0, 1, 2, 3, 4, 5, 6, 7, 8])).empty = 3 ∧
    ((sendStringWords 4 [0, 1, 2, 3, 4, 5, 6, 7, 8]).getD 1 wordD).sop = false ∧
    ((sendStringWords 4 [0, 1, 2, 3, 4, 5, 6, 7, 8]).getD 1 wordD).eop = false ∧
    ((sendStringWords 4 [0, 1, 2, 3, 4, 5, 6, 7, 8]).getD 1 wordD).empty = 0 := by
  have h := avalonC4_packetize 4 [0, 1, 2, 3, 4, 5, 6, 7, 8] (by decide) (by decide)
  have hm := h.2.2.2.2 1 (by decide) (by simp [h.1])
  exact ⟨h.1, h.2.1, h.2.2.1, h.2.2.2.1, hm.1, hm.2.1, hm.2.2⟩

theorem sendCycles_off_low :
    ∀ (n : Nat) (g : VGen) (c : TCyc), c ∈ sendCycles n g → c.off = true →
    c.valid = false := by
  intro n
  induction n with
  | zero =>
      intro g c hc hoff
      simp only [sendCycles, List.mem_singleton] at hc
      rw [hc]
  | succ n ih =>
      intro g c hc hoff
      by_cases hgap : isOffCnt g.onv = true
      · simp only [sendCycles, if_pos hgap, List.mem_append, List.mem_cons] at hc
        rcases hc with hrep | hc | hc
        · rw [List.eq_of_mem_replicate hrep]
        · rw [hc] at hoff
          cases hoff
        · exact ih _ c hc hoff
      · simp only [sendCycles, if_neg hgap, List.mem_cons] at hc
        rcases hc with hc | hc
        · rw [hc] at hoff
          cases hoff
        · exact ih _ c hc hoff

/-- C9: for every drawn on/off sequence, both packet drivers hold `valid` low
for the entire duration of every injected idle gap — no cycle chosen as
"off" ever has `valid` asserted, whether the packet is a byte string
(`_send_string`) or a word iterable (`_send_iterable`). -/
theorem avalonC9_gap_valid_low (w : Nat) (s pkt : List Nat) (g g2 : VGen)
    (c c2 : TCyc) :
    (c ∈ sendStringCycles w s g → c.off = true → c.valid = false) ∧
    (c2 ∈ sendIterCycles pkt g2 → c2.off = true → c2.valid = false) :=
  ⟨fun hc hoff => sendCycles_off_low _ _ c hc hoff,
   fun hc hoff => sendCycles_off_low _ _ c2 hc hoff⟩

/-- C9 witness: a generator drawing (on 0, off 2) forces a 2-cycle gap in the
9-byte packet trace, and such a gap cycle has `valid` low. -/
theorem avalonC9_gap_valid_low_witness :
    (⟨false, true⟩ : TCyc) ∈
      sendStringCycles 4 [0, 1, 2, 3, 4, 5, 6, 7, 8] ⟨OnCnt.cnt 0, 2, []⟩ ∧
    (⟨false, true⟩ : TCyc).valid = false :=
  ⟨by decide,
   (avalonC9_gap_valid_low 4 [0, 1, 2, 3, 4, 5, 6, 7, 8] [0]
      ⟨OnCnt.cnt 0, 2, []⟩ ⟨OnCnt.always, 0, []⟩ ⟨false, true⟩ ⟨false, true⟩).1
      (by decide) (by decide)⟩
